import Mathlib

/-!
Verification of the KPSM_Regis identifier / custody / attribute-normalization core.

Python strings are modelled as lists of characters (`PyStr`), Python dicts as
association lists, and the Django ORM store as plain Lean lists.  Each
definition is a direct translation of the corresponding function in
`src/forensics/models.py` or `src/forensics/views.py`; the source location is
given in the doc comment of every definition.
-/

/-- Model of a Python `str`: a list of characters. -/
abbrev PyStr := List Char

/-- Convert a Lean string literal to its `PyStr` model. -/
def ps (s : String) : PyStr := s.data

/-- The whitespace characters removed by Python `str.strip()` (ASCII subset;
exotic Unicode whitespace is not modelled). -/
def isPySpace (c : Char) : Bool :=
  c = ' ' || c = '\t' || c = '\n' || c = '\x0d' || c = '\x0b' || c = '\x0c'

/-- Python `s.strip()`: drop leading and trailing whitespace. -/
def pyStrip (s : PyStr) : PyStr :=
  ((s.dropWhile isPySpace).reverse.dropWhile isPySpace).reverse

/-- Python `s.startswith(p)`. -/
def pyStartsWith : PyStr → PyStr → Bool
  | [], _ => true
  | _ :: _, [] => false
  | a :: p, b :: s => a = b && pyStartsWith p s

/-- The decimal digit character for `d < 10`. -/
def digitChar (d : Nat) : Char := Char.ofNat (48 + d)

/-- Decimal digits of `n`, most significant first; fuel-driven so that the
kernel can evaluate it (the fuel `f` is sufficient whenever `n < f`). -/
def natDigitsAux : Nat → Nat → List Char
  | 0, _ => []
  | f + 1, n =>
    if n < 10 then [digitChar n]
    else natDigitsAux f (n / 10) ++ [digitChar (n % 10)]

/-- Decimal digit string of `n` (Python `str(n)` for non-negative `n`). -/
def natDigits (n : Nat) : List Char := natDigitsAux (n + 1) n

/-- Python `f"{n:0wd}"`: zero-pad the decimal digits of `n` to width `w`
(minimum width; longer numbers are kept whole). -/
def padNum (w : Nat) (n : Nat) : PyStr :=
  List.replicate (w - (natDigits n).length) '0' ++ natDigits n

/-- `c` is an ASCII decimal digit. -/
def isDigitChar (c : Char) : Bool := 48 ≤ c.toNat && c.toNat ≤ 57

/-- Numeric value of a digit string read left to right. -/
def digitsVal (s : PyStr) : Nat := s.foldl (fun a c => a * 10 + (c.toNat - 48)) 0

/-- Model of Python `int(s)` restricted to the shapes that can appear here:
optional surrounding whitespace, an optional `'+'` sign, then a non-empty
run of ASCII digits.  (A `'-'` sign cannot occur because the parsed text is
always a `split('-')` segment; underscores and Unicode digits are not
modelled.)  Returns `none` where Python raises `ValueError`. -/
def pyInt (s : PyStr) : Option Nat :=
  let t := pyStrip s
  let t := if t.head? = some '+' then t.tail else t
  if t ≠ [] && t.all isDigitChar then some (digitsVal t) else none

/-- Python `s.split('-')[1]`: the text between the first `'-'` and the next
`'-'` (or the end); `none` models the `IndexError` when `s` has no `'-'`. -/
def secondSeg (s : PyStr) : Option PyStr :=
  match s.dropWhile (fun c => !(c = '-')) with
  | [] => none
  | _ :: rest => some (rest.takeWhile (fun c => !(c = '-')))

/-- Python `s.split('-')[-1]`: the text after the last `'-'` (the whole
string when there is no `'-'`). -/
def lastSeg (s : PyStr) : PyStr :=
  (s.reverse.takeWhile (fun c => !(c = '-'))).reverse

/-! ### Case number generation (`Case.save`, src/forensics/models.py lines 101-128) -/

/-- `int(case.case_number.split('-')[1])` inside the scan loop of `Case.save`
(models.py line 117); `none` models the `ValueError`/`IndexError` caught by
the surrounding `try`. -/
def caseSeqNum (caseNumber : PyStr) : Option Nat := (secondSeg caseNumber).bind pyInt

/-- The `max_num` scan of `Case.save` (models.py lines 108-121): over all
stored case numbers starting with `year ++ "-"`, fold the parsed second
segment, keeping the largest; numbers that fail to parse are skipped
(`except ... continue`). -/
def case_scan_max (year : PyStr) (stored : List PyStr) : Nat :=
  (stored.filter (fun n => pyStartsWith (year ++ ['-']) n)).foldl
    (fun m n =>
      match caseSeqNum n with
      | some k => if k > m then k else m
      | none => m) 0

/-- The auto-generation branch of `Case.save` (models.py lines 103-126):
`f"{year}-{max_num + 1:04d}"`. -/
def next_case_number (year : PyStr) (stored : List PyStr) : PyStr :=
  year ++ '-' :: padNum 4 (case_scan_max year stored + 1)

/-- `Case.save` (models.py lines 101-128) restricted to the case-number field:
generate a number only when the provided `case_number` is empty (falsy),
otherwise keep the provided value. -/
def case_save_number (provided : PyStr) (year : PyStr) (stored : List PyStr) : PyStr :=
  if provided = [] then next_case_number year stored else provided

/-- `N` sequential saves of fresh cases with empty case numbers: each save
scans the store left by the previous saves and inserts its own number
(sequential = no concurrency, as in the claim). -/
def gen_case_numbers (year : PyStr) : List PyStr → Nat → List PyStr
  | _, 0 => []
  | stored, n + 1 =>
    let num := case_save_number [] year stored
    num :: gen_case_numbers year (stored ++ [num]) n

/-! ### Evidence number generation (`evidence_create`, src/forensics/views.py
lines 993-1056) -/

/-- A stored evidence row as seen by the auto-numbering query: the id of the
case it is bound to (`none` when unbound) and its evidence number. -/
structure EvRow where
  caseId : Option Nat
  number : PyStr
  deriving DecidableEq

/-- Python/SQL string comparison by code point (a proper prefix is smaller),
the order behind Django's `order_by('-evidence_number')`. -/
def pyStrLt : PyStr → PyStr → Bool
  | [], [] => false
  | [], _ :: _ => true
  | _ :: _, [] => false
  | a :: x, b :: y =>
    if a.toNat < b.toNat then true
    else if b.toNat < a.toNat then false
    else pyStrLt x y

/-- `order_by('-evidence_number').first()`: the greatest number of the
queryset in the order above (evidence numbers are unique, so no ties). -/
def qsMaxNumber (l : List PyStr) : Option PyStr :=
  l.foldl (fun acc n =>
    match acc with
    | none => some n
    | some m => if pyStrLt m n then some n else some m) none

/-- The queryset filter of `evidence_create` (views.py lines 1022-1026):
evidence bound to the given case whose number starts with the case's number
(the textual prefix is `case.case_number` with no trailing dash). -/
def evidence_scope (caseId : Nat) (caseNumber : PyStr) (db : List EvRow) : List PyStr :=
  (db.filter (fun e => e.caseId = some caseId && pyStartsWith caseNumber e.number)).map
    EvRow.number

/-- Auto-generation of a case-bound evidence number (views.py lines
1022-1039): take the lexicographically greatest number in scope, try to
parse its last `-`-segment as an integer and add 1; use 1 when the scope is
empty or when that single parse fails; format `f"{case_number}-{n:03d}"`. -/
def next_evidence_number (caseNumber : PyStr) (scope : List PyStr) : PyStr :=
  let nextNum :=
    match qsMaxNumber scope with
    | some top =>
      match pyInt (lastSeg top) with
      | some lastNum => lastNum + 1
      | none => 1
    | none => 1
  caseNumber ++ '-' :: padNum 3 nextNum

/-- `evidence_create` auto-numbering for a case-bound item (views.py lines
1001-1039, restricted to the evidence-number field). -/
def gen_evidence_number (caseId : Nat) (caseNumber : PyStr) (db : List EvRow) : PyStr :=
  next_evidence_number caseNumber (evidence_scope caseId caseNumber db)

/-- The algorithm claim C2 describes (spec §4.1 `next_evidence_number`):
1 plus the maximum integer last `-`-segment over all numbers in scope,
segments that fail to parse being skipped (0 when none parse), 3-digit
padded.  Written from the claim's words for comparison with
`next_evidence_number`; the code does not implement it. -/
def next_evidence_number_claim (caseNumber : PyStr) (scope : List PyStr) : PyStr :=
  caseNumber ++ '-' ::
    padNum 3 ((scope.filterMap (fun n => pyInt (lastSeg n))).foldl max 0 + 1)

/-! ### Device-specific attribute bags (`_extract_device_specific_data`,
src/forensics/views.py lines 15-100) -/

/-- A SIM-card sub-record: an insertion-ordered dict of string fields. -/
abbrev SimCard := List (PyStr × PyStr)

/-- A value stored in the `device_specific_data` JSON bag: a stripped string,
the boolean `True` used for the `write_blocker_used` checkbox, or the
`sim_cards` list. -/
inductive PyVal where
  | str : PyStr → PyVal
  | boolV : Bool → PyVal
  | simList : List SimCard → PyVal
  deriving DecidableEq

/-- An insertion-ordered Python dict with string keys. -/
abbrev Bag := List (PyStr × PyVal)

/-- Association-list lookup: Python `dict.get` / `d[k]` over an
insertion-ordered dict (keys in the bags built here are unique). -/
def alGet {β : Type} (bag : List (PyStr × β)) (key : PyStr) : Option β :=
  match bag with
  | [] => none
  | (k, v) :: rest => if k = key then some v else alGet rest key

/-- The parts of `request.POST` (a Django `QueryDict`) that the modelled
views read: `get` returns the value of a key (`none` when absent) and
`getlist` the list of values of a multi-valued key (`[]` when absent). -/
structure PostData where
  get : PyStr → Option PyStr
  getlist : PyStr → List PyStr

/-- The fixed field registry `device_specific_fields` of
`_extract_device_specific_data` (views.py lines 17-41): the union of the
flat attribute names of **all** device types. -/
def device_specific_fields : List PyStr :=
  [ps "computer_type", ps "os_type", ps "os_version", ps "cpu", ps "ram",
   ps "storage_type", ps "storage_capacity", ps "encryption_status",
   ps "write_blocker_used",
   ps "mobile_os_type", ps "mobile_os_version", ps "sim_status", ps "lock_status",
   ps "battery_level",
   ps "storage_device_type", ps "capacity", ps "connection_interface", ps "filesystem",
   ps "network_device_type", ps "network_ip_address", ps "subnet_mask",
   ps "admin_access_method",
   ps "service_provider", ps "account_identifier", ps "legal_authority",
   ps "access_method",
   ps "vehicle_make", ps "vehicle_model", ps "vehicle_year", ps "vin_number",
   ps "license_plate", ps "odometer",
   ps "video_source_type", ps "camera_location", ps "video_format", ps "resolution",
   ps "duration", ps "frame_rate", ps "date_diff_value", ps "time_diff_value",
   ps "console_type", ps "account_username",
   ps "drone_storage_type", ps "controller_serial",
   ps "iot_device_type", ps "network_type",
   ps "memory_type", ps "system_state", ps "memory_size", ps "acquisition_duration"]

/-- The body of the flat-field loop of `_extract_device_specific_data`
(views.py lines 44-51): the entry contributed by one registered field — kept
when the submitted value is truthy with a truthy strip (`if value and
value.strip()`), stored as `True` for the `write_blocker_used` checkbox and
as the stripped string otherwise. -/
def flat_field_entry (pd : PostData) (field : PyStr) : Option (PyStr × PyVal) :=
  match pd.get field with
  | none => none
  | some value =>
    if value ≠ [] ∧ pyStrip value ≠ [] then
      some (field,
        if field = ps "write_blocker_used" then PyVal.boolV true
        else PyVal.str (pyStrip value))
    else none

/-- The flat-field loop of `_extract_device_specific_data` (views.py lines
43-51): one pass over the fixed field registry. -/
def extract_flat_fields (pd : PostData) : Bag :=
  device_specific_fields.filterMap (flat_field_entry pd)

/-- One field of the SIM loop body (views.py lines 78-91): the binding
contributed at index `i` by one parallel array. -/
def simField (key : PyStr) (l : List PyStr) (i : Nat) : SimCard :=
  match l.get? i with
  | some v => if pyStrip v ≠ [] then [(key, pyStrip v)] else []
  | none => []

/-- The SIM sub-record built at index `i` (views.py lines 76-95), fields in
source assignment order. -/
def sim_card_at (iccids imsis phones carriers simTypes pins notesArr : List PyStr)
    (i : Nat) : SimCard :=
  simField (ps "iccid") iccids i ++ simField (ps "imsi") imsis i ++
  simField (ps "phone_number") phones i ++ simField (ps "carrier") carriers i ++
  simField (ps "sim_type") simTypes i ++ simField (ps "pin_status") pins i ++
  simField (ps "notes") notesArr i

/-- The SIM-card list of `_extract_device_specific_data` (views.py lines
64-95): zip the seven parallel arrays positionally up to the longest length
and keep only the non-empty sub-records. -/
def build_sim_cards (iccids imsis phones carriers simTypes pins notesArr : List PyStr) :
    List SimCard :=
  let maxLength := max iccids.length (max imsis.length (max phones.length
    (max carriers.length (max simTypes.length (max pins.length notesArr.length)))))
  (List.range maxLength).filterMap (fun i =>
    let card := sim_card_at iccids imsis phones carriers simTypes pins notesArr i
    if card ≠ [] then some card else none)

/-- `_extract_device_specific_data` (views.py lines 15-100): the flat fields,
then — when any SIM array was submitted and at least one sub-record
survives — the `sim_cards` key. -/
def extract_device_specific_data (pd : PostData) : Bag :=
  let device_data := extract_flat_fields pd
  let iccids := pd.getlist (ps "sim_iccid[]")
  let imsis := pd.getlist (ps "sim_imsi[]")
  let phones := pd.getlist (ps "sim_phone_number[]")
  let carriers := pd.getlist (ps "sim_carrier[]")
  let simTypes := pd.getlist (ps "sim_type[]")
  let pins := pd.getlist (ps "sim_pin_status[]")
  let notesArr := pd.getlist (ps "sim_notes[]")
  if iccids ≠ [] ∨ imsis ≠ [] ∨ phones ≠ [] ∨ carriers ≠ [] ∨ simTypes ≠ [] ∨
      pins ≠ [] ∨ notesArr ≠ [] then
    let cards := build_sim_cards iccids imsis phones carriers simTypes pins notesArr
    if cards ≠ [] then device_data ++ [(ps "sim_cards", PyVal.simList cards)]
    else device_data
  else device_data

/-- `normalize_device_attributes(device_type, raw_bag)` of spec §6: every
view calls `_extract_device_specific_data(request.POST)` whatever the
submitted device type is; the device type is not consulted. -/
def normalize_device_attributes (_deviceType : PyStr) (pd : PostData) : Bag :=
  extract_device_specific_data pd

/-! ### Custody ledger and evidence record -/

/-- One `EvidenceTransfer` row (models.py lines 221-241).  Ledgers below are
kept newest row first; appending a row is consing it. -/
structure Transfer where
  from_department : PyStr
  to_department : PyStr
  received_by : PyStr
  notes : PyStr
  deriving DecidableEq

/-- The fields of an `Evidence` row (models.py lines 261-397) that the
claims touch; the remaining scalar columns are handled identically by the
views and are omitted. -/
structure Evidence where
  evidence_number : PyStr
  device_type : Option PyStr
  item_name : PyStr
  description : PyStr
  status : Option PyStr
  notes : PyStr
  device_specific_data : Bag
  current_department : PyStr
  received_by : PyStr
  received_date : Option Nat
  file_path : Option (List Nat)
  file_size : Option Nat
  hash_md5 : PyStr
  hash_sha1 : PyStr
  hash_sha256 : PyStr
  deriving DecidableEq

/-- `Evidence.save` (models.py lines 387-397): when a file is attached and
`hash_md5` is still empty (falsy), compute the MD5/SHA-1/SHA-256 digests of
the full byte content and its length and store all four together; in every
other case leave the four fields unchanged.  The digest functions are
abstract parameters — the claims hold for any digest implementation. -/
def evidence_model_save (md5 sha1 sha256 : List Nat → PyStr) (e : Evidence) : Evidence :=
  match e.file_path with
  | some content =>
    if e.hash_md5 = [] then
      { e with
        hash_md5 := md5 content
        hash_sha1 := sha1 content
        hash_sha256 := sha256 content
        file_size := some content.length }
    else e
  | none => e

/-- `evidence_quick_update_department` (views.py lines 756-793), branch
`field == 'current_department'`: set the department, then append a ledger
row only when the old and new values differ. -/
def evidence_quick_update_department (value : PyStr) (e : Evidence)
    (ledger : List Transfer) : Evidence × List Transfer :=
  let old_department := e.current_department
  let e := { e with current_department := value }
  if old_department ≠ value then
    (e, ⟨old_department, value, e.received_by,
      ps "Quick update from location search"⟩ :: ledger)
  else (e, ledger)

/-- The choices table `Evidence.DEVICE_TYPE_CHOICES` (models.py lines
263-277), read as `dict(Evidence.DEVICE_TYPE_CHOICES)`. -/
def device_type_choices : List (PyStr × PyStr) :=
  [(ps "computer", ps "Computer"), (ps "mobile", ps "Mobile Device"),
   (ps "storage", ps "Storage Device"), (ps "network", ps "Network Device"),
   (ps "cloud", ps "Cloud/Online Account"), (ps "drone", ps "Drone/UAV"),
   (ps "gaming", ps "Gaming Console"), (ps "car", ps "Vehicle/Automotive"),
   (ps "iot", ps "IoT Device"), (ps "memory", ps "Memory/RAM"),
   (ps "video", ps "Video Evidence"), (ps "dvr_nvr", ps "DVR/NVR"),
   (ps "other", ps "Other")]

/-- `evidence_update` (views.py lines 1231-1339) restricted to the modelled
fields (images, documents, person links and the remaining scalar columns
are updated in the same wholesale way and are claim-irrelevant).  `parseDT`
abstracts `django.utils.dateparse.parse_datetime`; `now` is the request
time (`timezone.now()`). -/
def evidence_update_view (parseDT : PyStr → Option Nat) (now : Nat) (pd : PostData)
    (e : Evidence) (ledger : List Transfer) : Evidence × List Transfer :=
  let device_specific_data := extract_device_specific_data pd
  let evidence_number :=
    match pd.get (ps "evidence_number") with
    | some v => if pyStrip v ≠ [] then pyStrip v else e.evidence_number
    | none => e.evidence_number
  let device_type := pd.get (ps "device_type")
  let item_name :=
    let raw := pyStrip ((pd.get (ps "item_name")).getD [])
    if raw ≠ [] then raw
    else
      match device_type with
      | some dt => (alGet device_type_choices dt).getD (ps "Evidence Item")
      | none => ps "Evidence Item"
  let old_department := e.current_department
  let new_department := (pd.get (ps "current_department")).getD []
  let parse_date_field := fun (field : PyStr) =>
    let v := pyStrip ((pd.get field).getD [])
    if v ≠ [] then parseDT v else none
  let received_date :=
    match parse_date_field (ps "received_date") with
    | some d => some d
    | none =>
      if new_department ≠ [] ∧ old_department ≠ new_department then some now
      else if new_department = [] then none
      else e.received_date
  let e := { e with
    evidence_number := evidence_number
    device_type := device_type
    item_name := item_name
    description := (pd.get (ps "description")).getD []
    status := pd.get (ps "status")
    notes := (pd.get (ps "notes")).getD []
    device_specific_data := device_specific_data
    current_department := new_department
    received_by := (pd.get (ps "received_by")).getD []
    received_date := received_date }
  if old_department ≠ new_department then
    (e, ⟨old_department, new_department, e.received_by, ps "Evidence update"⟩ :: ledger)
  else (e, ledger)

/-- The `action == 'department'` branch of `evidence_bulk_update` (views.py
lines 1652-1674) for one evidence item: set the department, stamp
`received_date` when missing, and log a transfer only when the old and new
departments differ (`if old_department != value`). -/
def evidence_bulk_update_department (value : PyStr) (now : Nat) (e : Evidence)
    (ledger : List Transfer) : Evidence × List Transfer :=
  let old_department := e.current_department
  let e := { e with
    current_department := value
    received_date := match e.received_date with
      | some d => some d
      | none => some now }
  if old_department ≠ value then
    (e, ⟨old_department, value, e.received_by,
      ps "Bulk department assignment"⟩ :: ledger)
  else (e, ledger)

/-- One automatic department-changing request against a single evidence
item: a quick AJAX update (views.py 756-793) or a full `evidence_update`
POST (views.py 1231-1339). -/
inductive DeptUpdate where
  | quick : PyStr → DeptUpdate
  | full : PostData → Nat → DeptUpdate

/-- Apply a sequence of automatic updates, threading the evidence row and
its ledger. -/
def apply_updates (parseDT : PyStr → Option Nat) :
    List DeptUpdate → Evidence × List Transfer → Evidence × List Transfer
  | [], s => s
  | DeptUpdate.quick v :: ops, s =>
    apply_updates parseDT ops (evidence_quick_update_department v s.1 s.2)
  | DeptUpdate.full pd now :: ops, s =>
    apply_updates parseDT ops (evidence_update_view parseDT now pd s.1 s.2)

/-- Custody consistency: the current department equals the `to_department`
of the most recently appended ledger row, or is empty when the ledger is
empty. -/
def custody_consistent (e : Evidence) (ledger : List Transfer) : Prop :=
  e.current_department = ((ledger.head?).map Transfer.to_department).getD []

/-- A concrete evidence row held by department `sur`, used by witnesses. -/
def evSur : Evidence :=
  ⟨ps "25-0001-001", none, ps "Phone", [], none, [], [], ps "sur", ps "J", none,
    none, none, [], [], []⟩

/-- A one-row ledger consistent with `evSur`, used by witnesses. -/
def ledgerSur : List Transfer :=
  [⟨[], ps "sur", ps "J", ps "Initial evidence creation"⟩]

/-- The seven multi-valued SIM keys read by `_extract_device_specific_data`
(views.py lines 54-60). -/
def sim_post_keys : List PyStr :=
  [ps "sim_iccid[]", ps "sim_imsi[]", ps "sim_phone_number[]", ps "sim_carrier[]",
   ps "sim_type[]", ps "sim_pin_status[]", ps "sim_notes[]"]

/-- The submission of the claim C5 example:
`{'os_type': ' iOS ', 'cpu': 'x86', 'unknown_key': 'x'}`. -/
def mobileExample : PostData :=
  ⟨fun k =>
    if k = ps "os_type" then some (ps " iOS ")
    else if k = ps "cpu" then some (ps "x86")
    else if k = ps "unknown_key" then some (ps "x")
    else none,
   fun _ => []⟩

/-- The submission of the claim C6 example: `iccid=['A','B']`, `imsi=['X']`,
all other SIM arrays and flat fields empty. -/
def simExample : PostData :=
  ⟨fun _ => none,
   fun k =>
    if k = ps "sim_iccid[]" then [ps "A", ps "B"]
    else if k = ps "sim_imsi[]" then [ps "X"]
    else []⟩

/-- A submission with no fields at all. -/
def emptySimPost : PostData := ⟨fun _ => none, fun _ => []⟩

/-- A submission with one SIM row and nothing else, used against C9. -/
def simOnlyPost : PostData :=
  ⟨fun _ => none, fun k => if k = ps "sim_iccid[]" then [ps "A"] else []⟩

/-- Reinterpret a stored bag as resubmitted form data, to state the spec's
idempotence guarantee (the source function consumes a `QueryDict` but
produces a plain dict, so re-running it needs this canonical coercion):
a string value is submitted as itself; the boolean `True` and the
`sim_cards` list have no string form and are not form fields; a plain dict
has no multi-valued `[]`-suffixed keys, so every `getlist` is empty. -/
def bag_as_post (b : Bag) : PostData :=
  ⟨fun k =>
    match alGet b k with
    | some (PyVal.str s) => some s
    | _ => none,
   fun _ => []⟩

/-! ### Explicit identifiers and duplicate handling (C8) -/

/-- The observable outcome of a create/renumber request: success with the
updated store of identifier strings; a form re-rendered with the explicit
`"... already exists"` duplicate-identifier message; a form re-rendered with
the generic `"Error creating evidence"` message (the blanket
`except Exception`); or an exception escaping the view unhandled.  The
store is unchanged in every failure case, the rejected save being the only
write. -/
inductive RequestOutcome where
  | ok : List PyStr → RequestOutcome
  | rejectedDuplicate : List PyStr → RequestOutcome
  | rejectedGeneric : List PyStr → RequestOutcome
  | crashed : List PyStr → RequestOutcome
  deriving DecidableEq

/-- `case_create` (views.py lines 357-403) restricted to the case-number
field: the stripped posted number reaches `Case.objects.create` (which
auto-generates only when it is empty, per `Case.save`); a duplicate raises
`IntegrityError`, which the view catches with the `"Case number ... already
exists"` message, leaving the store unchanged. -/
def case_create_view (caseNumber : PyStr) (year : PyStr) (db : List PyStr) :
    RequestOutcome :=
  let finalNumber := case_save_number caseNumber year db
  if finalNumber ∈ db then RequestOutcome.rejectedDuplicate db
  else RequestOutcome.ok (db ++ [finalNumber])

/-- `case_update` (views.py lines 406-445) restricted to renumbering: a
non-empty posted number different from the current one is checked against
the other stored numbers (`filter(case_number=new).exclude(pk=case.pk)`)
and rejected with the `"already exists"` message when taken. -/
def case_update_view (newNumber : PyStr) (current : PyStr) (db : List PyStr) :
    RequestOutcome :=
  if newNumber ≠ [] ∧ newNumber ≠ current then
    if newNumber ∈ db.erase current then RequestOutcome.rejectedDuplicate db
    else RequestOutcome.ok (db.erase current ++ [newNumber])
  else RequestOutcome.ok db

/-- `evidence_create` (views.py lines 1116-1157) with an explicit evidence
number: `Evidence.objects.create` raises on a duplicate and the blanket
`except Exception` re-renders the form with the generic
`"Error creating evidence"` message; the store is unchanged on failure. -/
def evidence_create_view (evidenceNumber : PyStr) (db : List PyStr) : RequestOutcome :=
  if evidenceNumber ∈ db then RequestOutcome.rejectedGeneric db
  else RequestOutcome.ok (db ++ [evidenceNumber])

/-- `evidence_update` renumbering (views.py lines 1264-1266 and the
unguarded `evidence.save()` at line 1329):
`request.POST.get('evidence_number', '').strip() or evidence.evidence_number`
performs no uniqueness check and no `try` surrounds the save, so a
duplicate violates the `unique=True` column constraint and the
`IntegrityError` escapes the view unhandled; the store stays unchanged
because the failed save is the only write. -/
def evidence_update_number_view (posted : PyStr) (current : PyStr) (db : List PyStr) :
    RequestOutcome :=
  let newNumber := if pyStrip posted ≠ [] then pyStrip posted else current
  if newNumber ∈ db.erase current then RequestOutcome.crashed db
  else RequestOutcome.ok (db.erase current ++ [newNumber])

section ListLemmas

variable {α : Type} {p : α → Bool}

theorem dropWhile_all_false : ∀ {l : List α}, (∀ c ∈ l, p c = false) → l.dropWhile p = l
  | [], _ => rfl
  | a :: l, h => by
    have ha : p a = false := h a (List.mem_cons_self a l)
    simp [List.dropWhile, ha]

theorem dropWhile_append_all_true :
    ∀ {a : List α} (b : List α), (∀ c ∈ a, p c = true) → (a ++ b).dropWhile p = b.dropWhile p
  | [], _, _ => rfl
  | x :: a, b, h => by
    have hx : p x = true := h x (List.mem_cons_self x a)
    simpa [List.dropWhile, hx] using
      dropWhile_append_all_true b (fun c hc => h c (List.mem_cons_of_mem x hc))

theorem takeWhile_all_true : ∀ {l : List α}, (∀ c ∈ l, p c = true) → l.takeWhile p = l
  | [], _ => rfl
  | a :: l, h => by
    have ha : p a = true := h a (List.mem_cons_self a l)
    simpa [List.takeWhile, ha] using
      takeWhile_all_true (fun c hc => h c (List.mem_cons_of_mem a hc))

theorem takeWhile_append_all_true :
    ∀ {a : List α} (b : List α), (∀ c ∈ a, p c = true) → (a ++ b).takeWhile p = a ++ b.takeWhile p
  | [], _, _ => rfl
  | x :: a, b, h => by
    have hx : p x = true := h x (List.mem_cons_self x a)
    simpa [List.takeWhile, hx] using
      takeWhile_append_all_true b (fun c hc => h c (List.mem_cons_of_mem x hc))

theorem head_dropWhile_false :
    ∀ {l : List α} {a : α} {r : List α}, l.dropWhile p = a :: r → p a = false
  | [], _, _, h => by simp [List.dropWhile] at h
  | x :: l, a, r, h => by
    by_cases hx : p x = true
    · exact head_dropWhile_false (by simpa [List.dropWhile, hx] using h)
    · have hx' : p x = false := by simpa using hx
      simp [List.dropWhile, hx'] at h
      obtain ⟨h1, _⟩ := h
      exact h1 ▸ hx'

theorem dropWhile_suffix (q : α → Bool) : ∀ (l : List α), ∃ t, l = t ++ l.dropWhile q
  | [] => ⟨[], rfl⟩
  | a :: l => by
    by_cases ha : q a = true
    · obtain ⟨t, ht⟩ := dropWhile_suffix q l
      exact ⟨a :: t, by simp [List.dropWhile, ha]; exact ht⟩
    · have ha' : q a = false := by simpa using ha
      exact ⟨[], by simp [List.dropWhile, ha']⟩

theorem dropWhile_of_head_false {l : List α} (h : ∀ a r, l = a :: r → p a = false) :
    l.dropWhile p = l := by
  cases l with
  | nil => rfl
  | cons a r => simp [List.dropWhile, h a r rfl]

end ListLemmas

theorem pyStrip_of_no_space {s : PyStr} (h : ∀ c ∈ s, isPySpace c = false) :
    pyStrip s = s := by
  unfold pyStrip
  rw [dropWhile_all_false h, dropWhile_all_false (fun c hc => h c (List.mem_reverse.mp hc)),
    List.reverse_reverse]

theorem pyStrip_idem (s : PyStr) : pyStrip (pyStrip s) = pyStrip s := by
  set p := isPySpace with hp
  set u := s.dropWhile p with hu
  set w := u.reverse.dropWhile p with hw
  have hps : pyStrip s = w.reverse := rfl
  -- (1) dropping from the front of `w.reverse` removes nothing:
  have h1 : w.reverse.dropWhile p = w.reverse := by
    apply dropWhile_of_head_false
    intro a r har
    -- `w.reverse` is a prefix of `u`, so its head is the head of `u`
    obtain ⟨t, ht⟩ := dropWhile_suffix p u.reverse
    have hu' : u = w.reverse ++ t.reverse := by
      have := congrArg List.reverse ht
      simpa [hw] using this
    have hs : s.dropWhile p = a :: (r ++ t.reverse) := by
      rw [← hu, hu', har]; simp
    exact head_dropWhile_false hs
  -- (2) dropping from the front of `w` removes nothing:
  have h2 : w.dropWhile p = w := by
    apply dropWhile_of_head_false
    intro a r har
    have hs : u.reverse.dropWhile p = a :: r := by rw [← hw, har]
    exact head_dropWhile_false hs
  show ((w.reverse.dropWhile p).reverse.dropWhile p).reverse = w.reverse
  rw [h1, List.reverse_reverse, h2]

theorem natDigitsAux_succ (f n : Nat) :
    natDigitsAux (f + 1) n =
      if n < 10 then [digitChar n] else natDigitsAux f (n / 10) ++ [digitChar (n % 10)] := rfl

theorem natDigitsAux_fuel (f₁ : Nat) : ∀ {f₂ n : Nat}, n < f₁ → n < f₂ →
    natDigitsAux f₁ n = natDigitsAux f₂ n := by
  induction f₁ with
  | zero => intro f₂ n h₁ _; omega
  | succ f ih =>
    intro f₂ n h₁ h₂
    cases f₂ with
    | zero => omega
    | succ g =>
      by_cases h : n < 10
      · rw [natDigitsAux_succ, natDigitsAux_succ, if_pos h, if_pos h]
      · have hdiv : n / 10 < n := Nat.div_lt_self (by omega) (by omega)
        rw [natDigitsAux_succ, natDigitsAux_succ, if_neg h, if_neg h,
          ih (show n / 10 < f by omega) (show n / 10 < g by omega)]

theorem natDigits_lt_ten {n : Nat} (h : n < 10) : natDigits n = [digitChar n] := by
  unfold natDigits
  rw [natDigitsAux_succ, if_pos h]

theorem natDigits_ge_ten {n : Nat} (h : ¬ n < 10) :
    natDigits n = natDigits (n / 10) ++ [digitChar (n % 10)] := by
  have hdiv : n / 10 < n := Nat.div_lt_self (by omega) (by omega)
  unfold natDigits
  rw [natDigitsAux_succ, if_neg h,
    natDigitsAux_fuel n (show n / 10 < n by omega) (Nat.lt_succ_self _)]

theorem digitChar_toNat : ∀ d < 10, (digitChar d).toNat = 48 + d := by decide

theorem isDigitChar_digitChar : ∀ d < 10, isDigitChar (digitChar d) = true := by decide

theorem digitsVal_snoc (l : PyStr) (c : Char) :
    digitsVal (l ++ [c]) = digitsVal l * 10 + (c.toNat - 48) := by
  simp [digitsVal, List.foldl_append]

theorem digitsVal_natDigits (n : Nat) : digitsVal (natDigits n) = n := by
  induction n using Nat.strong_induction_on with
  | _ n ih =>
    by_cases h : n < 10
    · rw [natDigits_lt_ten h]
      have := digitChar_toNat n h
      simp [digitsVal, this]
    · have hdiv : n / 10 < n := Nat.div_lt_self (by omega) (by omega)
      rw [natDigits_ge_ten h, digitsVal_snoc, ih _ hdiv,
        digitChar_toNat (n % 10) (Nat.mod_lt _ (by omega))]
      omega

theorem natDigits_all_digits (n : Nat) : ∀ c ∈ natDigits n, isDigitChar c = true := by
  induction n using Nat.strong_induction_on with
  | _ n ih =>
    by_cases h : n < 10
    · rw [natDigits_lt_ten h]
      intro c hc
      rw [List.mem_singleton] at hc
      exact hc ▸ isDigitChar_digitChar n h
    · have hdiv : n / 10 < n := Nat.div_lt_self (by omega) (by omega)
      rw [natDigits_ge_ten h]
      intro c hc
      rcases List.mem_append.mp hc with hc | hc
      · exact ih _ hdiv c hc
      · rw [List.mem_singleton] at hc
        exact hc ▸ isDigitChar_digitChar (n % 10) (Nat.mod_lt _ (by omega))

theorem natDigits_ne_nil (n : Nat) : natDigits n ≠ [] := by
  by_cases h : n < 10
  · rw [natDigits_lt_ten h]; simp
  · rw [natDigits_ge_ten h]; simp

theorem padNum_all_digits (w n : Nat) : ∀ c ∈ padNum w n, isDigitChar c = true := by
  intro c hc
  rcases List.mem_append.mp hc with hc | hc
  · rw [List.eq_of_mem_replicate hc]; decide
  · exact natDigits_all_digits n c hc

theorem padNum_ne_nil (w n : Nat) : padNum w n ≠ [] := by
  unfold padNum
  intro h
  exact natDigits_ne_nil n (List.append_eq_nil.mp h).2

theorem digitsVal_replicate_zero (k : Nat) (ds : PyStr) :
    digitsVal (List.replicate k '0' ++ ds) = digitsVal ds := by
  induction k with
  | zero => rfl
  | succ m ih =>
    show digitsVal ('0' :: (List.replicate m '0' ++ ds)) = digitsVal ds
    rw [← ih]
    rfl

theorem digitsVal_padNum (w n : Nat) : digitsVal (padNum w n) = n := by
  unfold padNum
  rw [digitsVal_replicate_zero, digitsVal_natDigits]

theorem isDigitChar_not_space {c : Char} (h : isDigitChar c = true) : isPySpace c = false := by
  have hd : 48 ≤ c.toNat ∧ c.toNat ≤ 57 := by simpa [isDigitChar] using h
  by_contra hs
  have hs' : isPySpace c = true := by simpa using hs
  have hle : c.toNat ≤ 32 := by
    simp only [isPySpace, Bool.or_eq_true, decide_eq_true_eq] at hs'
    rcases hs' with ((((h' | h') | h') | h') | h') | h' <;> (subst h'; decide)
  omega

theorem isDigitChar_ne_plus {c : Char} (h : isDigitChar c = true) : c ≠ '+' := by
  intro he
  subst he
  simp [isDigitChar] at h

theorem isDigitChar_ne_dash {c : Char} (h : isDigitChar c = true) : ¬ c = '-' := by
  intro he
  subst he
  simp [isDigitChar] at h

theorem pyInt_of_digits {s : PyStr} (hne : s ≠ []) (hall : ∀ c ∈ s, isDigitChar c = true) :
    pyInt s = some (digitsVal s) := by
  unfold pyInt
  rw [pyStrip_of_no_space (fun c hc => isDigitChar_not_space (hall c hc))]
  cases s with
  | nil => exact absurd rfl hne
  | cons a l =>
    have ha : isDigitChar a = true := hall a (List.mem_cons_self a l)
    have hplus : ¬ (some a = some '+') := by
      intro h
      exact isDigitChar_ne_plus ha (Option.some_inj.mp h)
    simp only [List.head?_cons, if_neg hplus]
    have : ((a :: l ≠ []) && (a :: l).all isDigitChar) = true := by
      simp only [Bool.and_eq_true, List.all_eq_true]
      exact ⟨by simp, hall⟩
    rw [if_pos this]

theorem pyInt_padNum (w n : Nat) : pyInt (padNum w n) = some n := by
  rw [pyInt_of_digits (padNum_ne_nil w n) (padNum_all_digits w n), digitsVal_padNum]

theorem padNum_injective {w a b : Nat} (h : padNum w a = padNum w b) : a = b := by
  have := congrArg digitsVal h
  rwa [digitsVal_padNum, digitsVal_padNum] at this

theorem secondSeg_mk {y d : PyStr} (hy : ∀ c ∈ y, ¬ c = '-') (hd : ∀ c ∈ d, ¬ c = '-') :
    secondSeg (y ++ '-' :: d) = some d := by
  unfold secondSeg
  rw [dropWhile_append_all_true _ (fun c hc => by simpa using hy c hc)]
  have h1 : List.dropWhile (fun c => !(c = '-')) ('-' :: d) = '-' :: d := rfl
  rw [h1]
  exact congrArg some (takeWhile_all_true (fun c hc => by simpa using hd c hc))

theorem lastSeg_mk (x : PyStr) {d : PyStr} (hd : ∀ c ∈ d, ¬ c = '-') :
    lastSeg (x ++ '-' :: d) = d := by
  unfold lastSeg
  rw [show (x ++ '-' :: d).reverse = d.reverse ++ '-' :: x.reverse by simp,
    takeWhile_append_all_true _ (fun c hc => by simpa using hd c (List.mem_reverse.mp hc))]
  have h1 : List.takeWhile (fun c => !(c = '-')) ('-' :: x.reverse) = [] := rfl
  rw [h1]
  simp

example : natDigits 0 = ['0'] := by decide
example : natDigits 1234 = ['1', '2', '3', '4'] := by decide
example : padNum 4 7 = ps "0007" := by decide
example : pyInt (ps "0012") = some 12 := by decide
example : pyInt (ps " +3 ") = some 3 := by decide
example : pyInt (ps "ABC") = none := by decide
example : pyInt (ps "") = none := by decide
example : secondSeg (ps "25-0013-x") = some (ps "0013") := by decide
example : secondSeg (ps "25") = none := by decide
example : lastSeg (ps "25-0008-001") = ps "001" := by decide
example : lastSeg (ps "nodash") = ps "nodash" := by decide
example : pyStrip (ps "  iOS  ") = ps "iOS" := by decide
example : pyStartsWith (ps "25-") (ps "25-0001") = true := by decide

/-! ### Lemmas for case number generation -/

theorem pyStartsWith_append : ∀ (p t : PyStr), pyStartsWith p (p ++ t) = true
  | [], _ => rfl
  | a :: p, t => by
    show (a = a && pyStartsWith p (p ++ t)) = true
    simp [pyStartsWith_append p t]

theorem caseSeqNum_mk {year : PyStr} (hy : ∀ c ∈ year, ¬ c = '-') (w v : Nat) :
    caseSeqNum (year ++ '-' :: padNum w v) = some v := by
  unfold caseSeqNum
  rw [secondSeg_mk hy (fun c hc => isDigitChar_ne_dash (padNum_all_digits w v c hc))]
  exact pyInt_padNum w v

theorem case_scan_fold_eq_max (L : List PyStr) : ∀ (acc : Nat),
    L.foldl (fun m n =>
      match caseSeqNum n with
      | some k => if k > m then k else m
      | none => m) acc = (L.filterMap caseSeqNum).foldl max acc := by
  induction L with
  | nil => intro acc; rfl
  | cons x L ih =>
    intro acc
    show (L.foldl _ (match caseSeqNum x with
      | some k => if k > acc then k else acc
      | none => acc)) = ((x :: L).filterMap caseSeqNum).foldl max acc
    cases hx : caseSeqNum x with
    | none => rw [List.filterMap_cons_none hx]; exact ih acc
    | some k =>
      rw [List.filterMap_cons_some hx]
      show L.foldl _ (if k > acc then k else acc) = (k :: (L.filterMap caseSeqNum)).foldl max acc
      have heq : (if k > acc then k else acc) = max acc k := by
        by_cases hk : k > acc
        · rw [if_pos hk]; omega
        · rw [if_neg hk]; omega
      rw [heq]
      exact ih (max acc k)

theorem case_scan_max_append {year : PyStr} (hy : ∀ c ∈ year, ¬ c = '-')
    (stored : List PyStr) (v : Nat) :
    case_scan_max year (stored ++ [year ++ '-' :: padNum 4 v]) =
      max (case_scan_max year stored) v := by
  unfold case_scan_max
  have hpref : pyStartsWith (year ++ ['-']) (year ++ '-' :: padNum 4 v) = true := by
    have : year ++ '-' :: padNum 4 v = (year ++ ['-']) ++ padNum 4 v := by simp
    rw [this]
    exact pyStartsWith_append _ _
  rw [List.filter_append, List.foldl_append]
  have h1 : List.filter (fun n => pyStartsWith (year ++ ['-']) n) [year ++ '-' :: padNum 4 v]
      = [year ++ '-' :: padNum 4 v] := by
    simp [List.filter, hpref]
  rw [h1]
  show (match caseSeqNum (year ++ '-' :: padNum 4 v) with
    | some k => if k > _ then k else _
    | none => _) = _
  rw [caseSeqNum_mk hy 4 v]
  show (if v > case_scan_max year stored then v else case_scan_max year stored)
      = max (case_scan_max year stored) v
  by_cases hv : v > case_scan_max year stored
  · rw [if_pos hv]; omega
  · rw [if_neg hv]; omega

theorem gen_case_numbers_spec {year : PyStr} (hy : ∀ c ∈ year, ¬ c = '-') :
    ∀ (N : Nat) (stored : List PyStr),
      gen_case_numbers year stored N =
        (List.range N).map (fun i => year ++ '-' :: padNum 4 (case_scan_max year stored + i + 1)) := by
  intro N
  induction N with
  | zero => intro stored; rfl
  | succ n ih =>
    intro stored
    show case_save_number [] year stored ::
        gen_case_numbers year (stored ++ [case_save_number [] year stored]) n = _
    have hsave : case_save_number [] year stored =
        year ++ '-' :: padNum 4 (case_scan_max year stored + 1) := rfl
    rw [hsave, ih, case_scan_max_append hy]
    have hmax : max (case_scan_max year stored) (case_scan_max year stored + 1) =
        case_scan_max year stored + 1 := by omega
    rw [hmax, List.range_succ_eq_map, List.map_cons, List.map_map]
    refine congrArg₂ _ (by rw [Nat.add_zero]) ?_
    refine List.map_congr_left fun i _ => ?_
    show year ++ '-' :: padNum 4 (case_scan_max year stored + 1 + i + 1) = _
    have : case_scan_max year stored + 1 + i + 1 = case_scan_max year stored + (i + 1) + 1 := by
      omega
    rw [this]
    rfl

/-- **C1.** For every year `Y` (a dash-free string), saving a case whose
`case_number` is empty assigns it `Y-NNNN` where `NNNN` is 1 plus the maximum
integer second segment parsed over all stored case numbers with textual
prefix `Y-` (0 when none parse), zero-padded to 4 digits; and when every
stored number sharing the prefix is malformed (fails to parse), `N`
sequential generations yield exactly the distinct numbers `Y-0001 … Y-000N`. -/
theorem caseNumberGeneration_correct (year : PyStr) (stored : List PyStr) (N : Nat)
    (hy : ∀ c ∈ year, ¬ c = '-') :
    (case_save_number [] year stored =
      year ++ '-' :: padNum 4
        (((stored.filter (fun n => pyStartsWith (year ++ ['-']) n)).filterMap
            caseSeqNum).foldl max 0 + 1)) ∧
    ((∀ n ∈ stored, pyStartsWith (year ++ ['-']) n = true → caseSeqNum n = none) →
      gen_case_numbers year stored N =
        (List.range N).map (fun i => year ++ '-' :: padNum 4 (i + 1)) ∧
      (gen_case_numbers year stored N).Nodup) := by
  constructor
  · show year ++ '-' :: padNum 4 (case_scan_max year stored + 1) = _
    rw [show case_scan_max year stored =
      ((stored.filter (fun n => pyStartsWith (year ++ ['-']) n)).filterMap caseSeqNum).foldl
        max 0 from case_scan_fold_eq_max _ 0]
  · intro hmal
    have hscan : case_scan_max year stored = 0 := by
      unfold case_scan_max
      have : (stored.filter (fun n => pyStartsWith (year ++ ['-']) n)).filterMap caseSeqNum
          = [] := by
        rw [List.filterMap_eq_nil_iff]
        intro n hn
        exact hmal n (List.mem_of_mem_filter hn) (List.of_mem_filter hn)
      rw [case_scan_fold_eq_max, this]
      rfl
    constructor
    · rw [gen_case_numbers_spec hy N stored, hscan]
      refine List.map_congr_left fun i _ => ?_
      rw [Nat.zero_add]
    · rw [gen_case_numbers_spec hy N stored]
      refine List.Nodup.map ?_ (List.nodup_range N)
      intro a b hab
      have h1 : ('-' :: padNum 4 (case_scan_max year stored + a + 1) : PyStr)
          = '-' :: padNum 4 (case_scan_max year stored + b + 1) :=
        List.append_cancel_left hab
      have h2 : padNum 4 (case_scan_max year stored + a + 1)
          = padNum 4 (case_scan_max year stored + b + 1) := by
        injection h1
      have := padNum_injective h2
      omega

/-- Witness for C1: year `"25"` with one malformed stored number `"25-XXXX"`
sharing the prefix; three sequential saves yield `25-0001`, `25-0002`,
`25-0003`, all distinct. -/
theorem caseNumberGeneration_correct_witness :
    gen_case_numbers (ps "25") [ps "25-XXXX"] 3 =
      [ps "25-0001", ps "25-0002", ps "25-0003"] ∧
    (gen_case_numbers (ps "25") [ps "25-XXXX"] 3).Nodup := by
  have h := caseNumberGeneration_correct (ps "25") [ps "25-XXXX"] 3 (by decide)
  have h2 := h.2 (by decide)
  refine ⟨?_, h2.2⟩
  rw [h2.1]
  decide

/-! ### C2: evidence number generation -/

/-- **C2 counterexample.** For case `25-0008` with stored evidence numbers
`25-0008-001` and `25-0008-ABC` (malformed, sharing the prefix), the code
generates `25-0008-001` — a duplicate of an existing number — because the
lexicographically greatest number is the malformed one and its failed parse
resets the sequence to 1.  The claim's skip-malformed maximum would give
`25-0008-002` instead, so malformed suffixes are not "skipped, not fatal". -/
theorem evidenceNumberGeneration_cex :
    gen_evidence_number 7 (ps "25-0008")
        [⟨some 7, ps "25-0008-001"⟩, ⟨some 7, ps "25-0008-ABC"⟩] = ps "25-0008-001" ∧
    next_evidence_number_claim (ps "25-0008") [ps "25-0008-001", ps "25-0008-ABC"]
        = ps "25-0008-002" ∧
    ps "25-0008-001" ≠ ps "25-0008-002" := by
  refine ⟨?_, ?_, ?_⟩ <;> decide

/-- **C2 amended.** For a case with number `K`, the generated evidence number
is `K-NNN` where `NNN` is 1 plus the parsed last `-`-segment of the
*lexicographically greatest* evidence number in scope (scope = items bound
to the case whose number starts with `K`), and `NNN = 1` when the scope is
empty or when that single parse fails; in particular the first item created
for the case gets `K-001` and a second call, after the first is stored,
gets `K-002`. -/
theorem evidenceNumberGeneration_amended (caseNumber top : PyStr) (k : Nat)
    (scope : List PyStr) (caseId : Nat) (db : List EvRow)
    (hscope : ∀ e ∈ db, ¬(e.caseId = some caseId ∧ pyStartsWith caseNumber e.number = true)) :
    (qsMaxNumber scope = some top → pyInt (lastSeg top) = some k →
      next_evidence_number caseNumber scope = caseNumber ++ '-' :: padNum 3 (k + 1)) ∧
    (qsMaxNumber scope = some top → pyInt (lastSeg top) = none →
      next_evidence_number caseNumber scope = caseNumber ++ '-' :: padNum 3 1) ∧
    gen_evidence_number caseId caseNumber db = caseNumber ++ '-' :: padNum 3 1 ∧
    gen_evidence_number caseId caseNumber
        (db ++ [⟨some caseId, caseNumber ++ '-' :: padNum 3 1⟩]) =
      caseNumber ++ '-' :: padNum 3 2 := by
  have hf : List.filter
      (fun e => e.caseId = some caseId && pyStartsWith caseNumber e.number) db = [] := by
    rw [List.filter_eq_nil_iff]
    intro e he
    simp only [Bool.and_eq_true, decide_eq_true_eq]
    exact hscope e he
  have hempty : evidence_scope caseId caseNumber db = [] := by
    unfold evidence_scope
    rw [hf]
    rfl
  refine ⟨?_, ?_, ?_, ?_⟩
  · intro h1 h2
    simp only [next_evidence_number, h1, h2]
  · intro h1 h2
    simp only [next_evidence_number, h1, h2]
  · unfold gen_evidence_number
    rw [hempty]
    rfl
  · unfold gen_evidence_number
    unfold evidence_scope
    rw [List.filter_append, hf]
    have hrow : List.filter
        (fun e => e.caseId = some caseId && pyStartsWith caseNumber e.number)
        ([⟨some caseId, caseNumber ++ '-' :: padNum 3 1⟩] : List EvRow) =
        [⟨some caseId, caseNumber ++ '-' :: padNum 3 1⟩] := by
      have hsw : pyStartsWith caseNumber (caseNumber ++ '-' :: padNum 3 1) = true :=
        pyStartsWith_append caseNumber ('-' :: padNum 3 1)
      simp [List.filter, hsw]
    rw [hrow]
    show next_evidence_number caseNumber [caseNumber ++ '-' :: padNum 3 1] = _
    have hparse : pyInt (lastSeg (caseNumber ++ '-' :: padNum 3 1)) = some 1 := by
      rw [lastSeg_mk caseNumber
        (fun c hc => isDigitChar_ne_dash (padNum_all_digits 3 1 c hc))]
      exact pyInt_padNum 3 1
    have hmax : qsMaxNumber [caseNumber ++ '-' :: padNum 3 1] =
        some (caseNumber ++ '-' :: padNum 3 1) := rfl
    simp only [next_evidence_number, hmax, hparse]

/-- Witness for the amended C2 at case number `25-0008` with an empty store:
the first generated number is `25-0008-001`, the second `25-0008-002`. -/
theorem evidenceNumberGeneration_amended_witness :
    gen_evidence_number 0 (ps "25-0008") [] = ps "25-0008-001" ∧
    gen_evidence_number 0 (ps "25-0008") [⟨some 0, ps "25-0008-001"⟩] = ps "25-0008-002" := by
  have h := evidenceNumberGeneration_amended (ps "25-0008") [] 0 [] 0 []
    (by intro e he; cases he)
  refine ⟨?_, ?_⟩
  · rw [h.2.2.1]; decide
  · have h4 := h.2.2.2
    have : ([] : List EvRow) ++ [⟨some 0, ps "25-0008" ++ '-' :: padNum 3 1⟩] =
        [⟨some 0, ps "25-0008-001"⟩] := by decide
    rw [this] at h4
    rw [h4]
    decide

/-! ### C3: automatic department updates and the custody ledger -/

theorem quick_preserves_consistent (v : PyStr) (e : Evidence) (l : List Transfer)
    (h : custody_consistent e l) :
    custody_consistent (evidence_quick_update_department v e l).1
      (evidence_quick_update_department v e l).2 := by
  unfold custody_consistent at *
  unfold evidence_quick_update_department
  by_cases hv : e.current_department ≠ v
  · rw [if_pos hv]
    simp
  · rw [if_neg hv]
    push_neg at hv
    simpa [← hv] using h

theorem full_preserves_consistent (parseDT : PyStr → Option Nat) (now : Nat)
    (pd : PostData) (e : Evidence) (l : List Transfer) (h : custody_consistent e l) :
    custody_consistent (evidence_update_view parseDT now pd e l).1
      (evidence_update_view parseDT now pd e l).2 := by
  unfold custody_consistent at *
  simp only [evidence_update_view]
  by_cases hv : e.current_department ≠ (pd.get (ps "current_department")).getD []
  · rw [if_pos hv]
    simp
  · rw [if_neg hv]
    push_neg at hv
    simpa [← hv] using h

theorem apply_updates_preserves_consistent (parseDT : PyStr → Option Nat)
    (ops : List DeptUpdate) :
    ∀ (e : Evidence) (l : List Transfer), custody_consistent e l →
      custody_consistent (apply_updates parseDT ops (e, l)).1
        (apply_updates parseDT ops (e, l)).2 := by
  induction ops with
  | nil => intro e l h; exact h
  | cons op ops ih =>
    intro e l h
    cases op with
    | quick v =>
      show custody_consistent
        (apply_updates parseDT ops (evidence_quick_update_department v e l)).1 _
      exact ih _ _ (quick_preserves_consistent v e l h)
    | full pd now =>
      show custody_consistent
        (apply_updates parseDT ops (evidence_update_view parseDT now pd e l)).1 _
      exact ih _ _ (full_preserves_consistent parseDT now pd e l h)

/-- **C3.** An automatic department update whose target equals the current
department appends no ledger row; two quick updates in a row with the same
target append one row total when the target differs and none otherwise; an
update to a different value appends exactly one row whose
`from_department` is the old value and `to_department` the new value (both
for the quick AJAX update and for the full `evidence_update` POST); and
custody consistency — `current_department` equals the `to_department` of
the most recently appended row, or is empty with no rows — is preserved by
every sequence of such updates. -/
theorem custodyLedger_auto_correct (parseDT : PyStr → Option Nat) (v : PyStr)
    (e : Evidence) (ledger : List Transfer) (pd : PostData) (now : Nat) :
    (v = e.current_department → evidence_quick_update_department v e ledger =
      ({ e with current_department := v }, ledger)) ∧
    (v ≠ e.current_department → evidence_quick_update_department v e ledger =
      ({ e with current_department := v },
        ⟨e.current_department, v, e.received_by,
          ps "Quick update from location search"⟩ :: ledger)) ∧
    ((apply_updates parseDT [DeptUpdate.quick v, DeptUpdate.quick v] (e, ledger)).2.length =
      ledger.length + (if v = e.current_department then 0 else 1)) ∧
    ((evidence_update_view parseDT now pd e ledger).1.current_department =
        (pd.get (ps "current_department")).getD [] ∧
      (evidence_update_view parseDT now pd e ledger).2 =
        (if (pd.get (ps "current_department")).getD [] = e.current_department then ledger
         else ⟨e.current_department, (pd.get (ps "current_department")).getD [],
            (pd.get (ps "received_by")).getD [], ps "Evidence update"⟩ :: ledger)) ∧
    (custody_consistent e ledger → ∀ ops : List DeptUpdate,
      custody_consistent (apply_updates parseDT ops (e, ledger)).1
        (apply_updates parseDT ops (e, ledger)).2) := by
  refine ⟨?_, ?_, ?_, ⟨?_, ?_⟩, ?_⟩
  · intro h
    have h' : ¬ e.current_department ≠ v := by simp [h]
    simp [evidence_quick_update_department, h']
  · intro h
    have h' : e.current_department ≠ v := fun he => h he.symm
    simp [evidence_quick_update_department, h']
  · by_cases h : v = e.current_department
    · have h' : ¬ e.current_department ≠ v := by simp [h]
      simp [apply_updates, evidence_quick_update_department, h', h]
    · have h' : e.current_department ≠ v := fun he => h he.symm
      simp [apply_updates, evidence_quick_update_department, h', h]
  · simp only [evidence_update_view]
    by_cases h : e.current_department ≠ (pd.get (ps "current_department")).getD []
    · rw [if_pos h]
    · rw [if_neg h]
  · simp only [evidence_update_view]
    by_cases h : (pd.get (ps "current_department")).getD [] = e.current_department
    · rw [if_neg (show ¬ e.current_department ≠ (pd.get (ps "current_department")).getD []
        by simp [h]), if_pos h]
    · rw [if_pos (show e.current_department ≠ (pd.get (ps "current_department")).getD []
        from fun he => h he.symm), if_neg h]
  · intro h ops
    exact apply_updates_preserves_consistent parseDT ops e ledger h

/-- Witness for C3: an item held by `sur` with a consistent one-row ledger;
a quick update to `ar` appends exactly the expected row, two same-target
quick updates append one row total, and consistency holds after a mixed
sequence of updates. -/
theorem custodyLedger_auto_correct_witness :
    evidence_quick_update_department (ps "ar") evSur ledgerSur =
      ({ evSur with current_department := ps "ar" },
        ⟨ps "sur", ps "ar", ps "J", ps "Quick update from location search"⟩ :: ledgerSur) ∧
    (apply_updates (fun _ => none)
      [DeptUpdate.quick (ps "ar"), DeptUpdate.quick (ps "ar")]
      (evSur, ledgerSur)).2.length = 2 ∧
    custody_consistent
      (apply_updates (fun _ => none)
        [DeptUpdate.quick (ps "ar"), DeptUpdate.quick (ps "jzz")] (evSur, ledgerSur)).1
      (apply_updates (fun _ => none)
        [DeptUpdate.quick (ps "ar"), DeptUpdate.quick (ps "jzz")] (evSur, ledgerSur)).2 := by
  have h := custodyLedger_auto_correct (fun _ => none) (ps "ar") evSur ledgerSur
    ⟨fun _ => none, fun _ => []⟩ 0
  refine ⟨?_, ?_, ?_⟩
  · have h2 := h.2.1 (by decide)
    rw [h2]
    decide
  · rw [h.2.2.1]
    decide
  · exact h.2.2.2.2 (by unfold custody_consistent; decide)
      [DeptUpdate.quick (ps "ar"), DeptUpdate.quick (ps "jzz")]

/-! ### C4: one-time content fingerprinting -/

/-- **C4.** With a file attached: if `hash_md5` is empty, all three digests
and the byte length are computed and stored together; once `hash_md5` is
non-empty the save is a no-op on all four fields, so attaching different
bytes after a first fingerprinting leaves the first digests unchanged. -/
theorem fingerprint_once_correct (md5 sha1 sha256 : List Nat → PyStr)
    (e : Evidence) (c1 c2 : List Nat) (hblank : e.hash_md5 = []) (hnz : md5 c1 ≠ []) :
    (evidence_model_save md5 sha1 sha256 { e with file_path := some c1 } =
      { e with
          file_path := some c1
          hash_md5 := md5 c1
          hash_sha1 := sha1 c1
          hash_sha256 := sha256 c1
          file_size := some c1.length }) ∧
    (∀ e' : Evidence, e'.hash_md5 ≠ [] →
      (evidence_model_save md5 sha1 sha256 e').hash_md5 = e'.hash_md5 ∧
      (evidence_model_save md5 sha1 sha256 e').hash_sha1 = e'.hash_sha1 ∧
      (evidence_model_save md5 sha1 sha256 e').hash_sha256 = e'.hash_sha256 ∧
      (evidence_model_save md5 sha1 sha256 e').file_size = e'.file_size) ∧
    (evidence_model_save md5 sha1 sha256
        { (evidence_model_save md5 sha1 sha256 { e with file_path := some c1 }) with
          file_path := some c2 } =
      { e with
          file_path := some c2
          hash_md5 := md5 c1
          hash_sha1 := sha1 c1
          hash_sha256 := sha256 c1
          file_size := some c1.length }) := by
  have hfirst : evidence_model_save md5 sha1 sha256 { e with file_path := some c1 } =
      { e with
          file_path := some c1
          hash_md5 := md5 c1
          hash_sha1 := sha1 c1
          hash_sha256 := sha256 c1
          file_size := some c1.length } := by
    show (if ({ e with file_path := some c1 } : Evidence).hash_md5 = [] then _ else _) = _
    rw [if_pos hblank]
  have hnoop : ∀ e' : Evidence, e'.hash_md5 ≠ [] →
      evidence_model_save md5 sha1 sha256 e' = e' := by
    intro e' hne
    unfold evidence_model_save
    cases hfp : e'.file_path with
    | none => rfl
    | some c =>
      show (if e'.hash_md5 = [] then _ else e') = e'
      rw [if_neg hne]
  refine ⟨hfirst, fun e' hne => by rw [hnoop e' hne]; exact ⟨rfl, rfl, rfl, rfl⟩, ?_⟩
  rw [hfirst]
  have hkeep := hnoop
    { e with
        file_path := some c2
        hash_md5 := md5 c1
        hash_sha1 := sha1 c1
        hash_sha256 := sha256 c1
        file_size := some c1.length } (by simpa using hnz)
  simpa using hkeep

/-- Witness for C4 with dummy digest functions and concrete byte contents:
the first save freezes the digests of `[1, 2]`; a second save after the
content is replaced by `[9]` keeps them. -/
theorem fingerprint_once_correct_witness :
    evidence_model_save (fun _ => ps "m") (fun _ => ps "s1") (fun _ => ps "s2")
      { (evidence_model_save (fun _ => ps "m") (fun _ => ps "s1") (fun _ => ps "s2")
          (⟨[], none, [], [], none, [], [], [], [], none, some [1, 2], none, [], [], []⟩ :
            Evidence)) with
        file_path := some [9] } =
      ⟨[], none, [], [], none, [], [], [], [], none, some [9], some 2,
        ps "m", ps "s1", ps "s2"⟩ := by
  have h := fingerprint_once_correct (fun _ => ps "m") (fun _ => ps "s1") (fun _ => ps "s2")
    (⟨[], none, [], [], none, [], [], [], [], none, some [1, 2], none, [], [], []⟩ :
      Evidence) [1, 2] [9] (by decide) (by decide)
  have h3 := h.2.2
  have heq : ({ (⟨[], none, [], [], none, [], [], [], [], none, some [1, 2], none, [], [],
      []⟩ : Evidence) with file_path := some [1, 2] }) =
      (⟨[], none, [], [], none, [], [], [], [], none, some [1, 2], none, [], [], []⟩ :
        Evidence) := by decide
  rw [heq] at h3
  rw [h3]
  decide

/-! ### C7: bulk department update and the transfer log -/

/-- **C7 counterexample.** The bulk department action compares the old and
new departments and appends nothing when they are equal: applied to an item
already held by `ar` with target `ar`, the ledger stays empty instead of
growing by one row. -/
theorem bulkTransfer_always_appends_cex :
    (evidence_bulk_update_department (ps "ar") 5
      (⟨ps "25-0001-001", none, ps "Phone", [], none, [], [], ps "ar", [], none,
        none, none, [], [], []⟩ : Evidence) []).2 = [] ∧
    (evidence_bulk_update_department (ps "ar") 5
      (⟨ps "25-0001-001", none, ps "Phone", [], none, [], [], ps "ar", [], none,
        none, none, [], [], []⟩ : Evidence) []).2.length ≠
      ([] : List Transfer).length + 1 := by
  refine ⟨?_, ?_⟩ <;> decide

/-- **C7 amended.** The only bulk custody action is the `department` action;
it always sets `current_department` to the target but appends a ledger row
*only when* the target differs from the item's current department — it
compares the old and new values, so an equal-target bulk update logs
nothing. -/
theorem bulkTransfer_amended (value : PyStr) (now : Nat) (e : Evidence)
    (ledger : List Transfer) :
    (evidence_bulk_update_department value now e ledger).1.current_department = value ∧
    (evidence_bulk_update_department value now e ledger).2 =
      (if value = e.current_department then ledger
       else ⟨e.current_department, value, e.received_by,
         ps "Bulk department assignment"⟩ :: ledger) ∧
    ((evidence_bulk_update_department value now e ledger).2.length = ledger.length ↔
      value = e.current_department) := by
  unfold evidence_bulk_update_department
  by_cases h : e.current_department ≠ value
  · rw [if_pos h, if_neg (fun he => h he.symm)]
    refine ⟨rfl, rfl, ?_⟩
    constructor
    · intro hlen
      exact absurd hlen (by simp)
    · intro hv
      exact absurd hv (fun he => h he.symm)
  · push_neg at h
    rw [if_neg (by simp [h]), if_pos h.symm]
    exact ⟨rfl, rfl, by simp [h]⟩

/-! ### C5/C6: attribute-bag normalization -/

theorem device_specific_fields_nodup : device_specific_fields.Nodup := by decide

theorem alGet_not_mem_filterMap {β : Type} (h : PyStr → Option (PyStr × β))
    (hkey : ∀ k p, h k = some p → p.1 = k) :
    ∀ (l : List PyStr) (f : PyStr), f ∉ l → alGet (l.filterMap h) f = none
  | [], _, _ => rfl
  | a :: l, f, hf => by
    cases hha : h a with
    | none =>
      rw [List.filterMap_cons_none hha]
      exact alGet_not_mem_filterMap h hkey l f (fun hl => hf (List.mem_cons_of_mem a hl))
    | some p =>
      rw [List.filterMap_cons_some hha]
      have hp := hkey a p hha
      have hne : ¬ p.1 = f := by
        rw [hp]
        intro he
        exact hf (List.mem_cons.mpr (Or.inl he.symm))
      show (if p.1 = f then some p.2 else alGet (l.filterMap h) f) = none
      rw [if_neg hne]
      exact alGet_not_mem_filterMap h hkey l f (fun hl => hf (List.mem_cons_of_mem a hl))

theorem alGet_filterMap_self {β : Type} (h : PyStr → Option (PyStr × β))
    (hkey : ∀ k p, h k = some p → p.1 = k) :
    ∀ (l : List PyStr), l.Nodup → ∀ f ∈ l,
      alGet (l.filterMap h) f = (h f).map Prod.snd := by
  intro l
  induction l with
  | nil => intro _ f hf; cases hf
  | cons a l ih =>
    intro hnd f hf
    have hna : a ∉ l := (List.nodup_cons.mp hnd).1
    have hnd' : l.Nodup := (List.nodup_cons.mp hnd).2
    rcases List.mem_cons.mp hf with rfl | hf'
    · cases hha : h f with
      | none =>
        rw [List.filterMap_cons_none hha]
        exact alGet_not_mem_filterMap h hkey l f hna
      | some p =>
        rw [List.filterMap_cons_some hha]
        have hp := hkey f p hha
        show (if p.1 = f then some p.2 else alGet (l.filterMap h) f) = some p.2
        rw [if_pos hp]
    · cases hha : h a with
      | none =>
        rw [List.filterMap_cons_none hha]
        exact ih hnd' f hf'
      | some p =>
        rw [List.filterMap_cons_some hha]
        have hp := hkey a p hha
        have hne : ¬ p.1 = f := by
          rw [hp]
          intro he
          exact hna (he.symm ▸ hf')
        show (if p.1 = f then some p.2 else alGet (l.filterMap h) f) = (h f).map Prod.snd
        rw [if_neg hne]
        exact ih hnd' f hf'

theorem alGet_append {β : Type} (ys : List (PyStr × β)) (k : PyStr) :
    ∀ (xs : List (PyStr × β)), alGet (xs ++ ys) k =
      (match alGet xs k with
       | some v => some v
       | none => alGet ys k)
  | [] => rfl
  | (a, v) :: xs => by
    by_cases ha : a = k
    · show (if a = k then some v else alGet (xs ++ ys) k) =
        (match (if a = k then some v else alGet xs k : Option β) with
         | some v => some v
         | none => alGet ys k)
      rw [if_pos ha, if_pos ha]
    · show (if a = k then some v else alGet (xs ++ ys) k) =
        (match (if a = k then some v else alGet xs k : Option β) with
         | some v => some v
         | none => alGet ys k)
      rw [if_neg ha, if_neg ha, alGet_append ys k xs]

theorem extract_flat_fields_key (pd : PostData) :
    ∀ k p, flat_field_entry pd k = some p → p.1 = k := by
  intro k p hkp
  unfold flat_field_entry at hkp
  cases hv : pd.get k with
  | none => simp [hv] at hkp
  | some v =>
    simp only [hv] at hkp
    by_cases hc : v ≠ [] ∧ pyStrip v ≠ []
    · rw [if_pos hc] at hkp
      injection hkp with h'
      rw [← h']
    · rw [if_neg hc] at hkp
      exact absurd hkp (by simp)

theorem extract_eq_flat (pd : PostData) (hsim : ∀ k ∈ sim_post_keys, pd.getlist k = []) :
    extract_device_specific_data pd = extract_flat_fields pd := by
  simp only [extract_device_specific_data]
  rw [hsim (ps "sim_iccid[]") (by decide), hsim (ps "sim_imsi[]") (by decide),
    hsim (ps "sim_phone_number[]") (by decide), hsim (ps "sim_carrier[]") (by decide),
    hsim (ps "sim_type[]") (by decide), hsim (ps "sim_pin_status[]") (by decide),
    hsim (ps "sim_notes[]") (by decide)]
  simp

/-- **C5.** Flat-attribute normalization ignores the submitted device type
and retains exactly the keys of the fixed all-device-type field registry
whose submitted value is non-blank after stripping; retained string values
are stored stripped, blank values are omitted, unknown keys are dropped;
and the claim's mobile example normalizes to
`{'os_type': 'iOS', 'cpu': 'x86'}` (the as-implemented, non-restrictive
behavior). -/
theorem attributeBag_normalization_correct (pd : PostData) (dt dt' : PyStr)
    (hsim : ∀ k ∈ sim_post_keys, pd.getlist k = []) :
    (normalize_device_attributes dt pd = normalize_device_attributes dt' pd) ∧
    (∀ f ∈ device_specific_fields, f ≠ ps "write_blocker_used" →
      alGet (extract_device_specific_data pd) f =
        (match pd.get f with
         | some v => if pyStrip v ≠ [] then some (PyVal.str (pyStrip v)) else none
         | none => none)) ∧
    (alGet (extract_device_specific_data pd) (ps "write_blocker_used") =
      (match pd.get (ps "write_blocker_used") with
       | some v => if pyStrip v ≠ [] then some (PyVal.boolV true) else none
       | none => none)) ∧
    (∀ f, f ∉ device_specific_fields → alGet (extract_device_specific_data pd) f = none) ∧
    extract_device_specific_data mobileExample =
      [(ps "os_type", PyVal.str (ps "iOS")), (ps "cpu", PyVal.str (ps "x86"))] := by
  have hstrip_nil : ∀ v : PyStr, v = [] → pyStrip v = [] := by
    intro v hv
    rw [hv]
    rfl
  refine ⟨rfl, ?_, ?_, ?_, by decide⟩
  · intro f hf hfw
    rw [extract_eq_flat pd hsim]
    unfold extract_flat_fields
    rw [alGet_filterMap_self _ (extract_flat_fields_key pd) device_specific_fields
      device_specific_fields_nodup f hf]
    unfold flat_field_entry
    cases hv : pd.get f with
    | none => rfl
    | some v =>
      simp only
      by_cases hc : pyStrip v = []
      · rw [if_neg (fun hand => hand.2 hc), if_neg (by simpa using hc)]
        rfl
      · have hvne : v ≠ [] := fun hve => hc (hstrip_nil v hve)
        rw [if_pos ⟨hvne, hc⟩, if_pos hc, if_neg hfw]
        rfl
  · rw [extract_eq_flat pd hsim]
    unfold extract_flat_fields
    rw [alGet_filterMap_self _ (extract_flat_fields_key pd) device_specific_fields
      device_specific_fields_nodup (ps "write_blocker_used") (by decide)]
    unfold flat_field_entry
    cases hv : pd.get (ps "write_blocker_used") with
    | none => rfl
    | some v =>
      simp only
      by_cases hc : pyStrip v = []
      · rw [if_neg (fun hand => hand.2 hc), if_neg (by simpa using hc)]
        rfl
      · have hvne : v ≠ [] := fun hve => hc (hstrip_nil v hve)
        rw [if_pos ⟨hvne, hc⟩, if_pos hc]
        simp
  · intro f hfnot
    rw [extract_eq_flat pd hsim]
    unfold extract_flat_fields
    exact alGet_not_mem_filterMap _ (extract_flat_fields_key pd) device_specific_fields f hfnot

/-- Witness for C5 at the claim's mobile example. -/
theorem attributeBag_normalization_correct_witness :
    extract_device_specific_data mobileExample =
      [(ps "os_type", PyVal.str (ps "iOS")), (ps "cpu", PyVal.str (ps "x86"))] ∧
    alGet (extract_device_specific_data mobileExample) (ps "cpu") =
      some (PyVal.str (ps "x86")) ∧
    alGet (extract_device_specific_data mobileExample) (ps "unknown_key") = none := by
  have h := attributeBag_normalization_correct mobileExample (ps "mobile") (ps "computer")
    (by decide)
  refine ⟨h.2.2.2.2, ?_, ?_⟩
  · have h2 := h.2.1 (ps "cpu") (by decide) (by decide)
    rw [h2]
    decide
  · exact h.2.2.2.1 (ps "unknown_key") (by decide)

theorem filterMap_guard_eq_filter {α : Type} [DecidableEq α] (f : Nat → List α) :
    ∀ (l : List Nat),
      l.filterMap (fun i => if f i ≠ [] then some (f i) else none) =
        (l.map f).filter (fun card => decide (card ≠ [])) := by
  intro l
  induction l with
  | nil => rfl
  | cons i l ih =>
    rw [List.map_cons, List.filter_cons]
    by_cases h : f i = []
    · rw [List.filterMap_cons_none (by rw [if_neg (by simpa using h)])]
      rw [ih]
      have : (decide (f i ≠ []) = true) = False := by simp [h]
      simp only [this]
      simp
    · rw [List.filterMap_cons_some (by rw [if_pos h])]
      rw [ih]
      have : decide (f i ≠ []) = true := by simpa using h
      simp only [this]
      simp

/-- **C6.** SIM normalization zips the seven parallel arrays positionally up
to the longest array's length, building at each index the sub-record of the
fields present and non-blank there and dropping indices whose sub-record is
empty; the `sim_cards` key is present in the extracted bag exactly when a
sub-record survives; and the claim's example `iccid=['A','B']`, `imsi=['X']`
yields `[{'iccid':'A','imsi':'X'}, {'iccid':'B'}]`. -/
theorem simZip_correct (iccids imsis phones carriers simTypes pins notesArr : List PyStr)
    (pd : PostData) :
    (build_sim_cards iccids imsis phones carriers simTypes pins notesArr =
      ((List.range (max iccids.length (max imsis.length (max phones.length
          (max carriers.length (max simTypes.length (max pins.length
            notesArr.length))))))).map
        (sim_card_at iccids imsis phones carriers simTypes pins notesArr)).filter
        (fun card => decide (card ≠ []))) ∧
    (build_sim_cards (pd.getlist (ps "sim_iccid[]")) (pd.getlist (ps "sim_imsi[]"))
        (pd.getlist (ps "sim_phone_number[]")) (pd.getlist (ps "sim_carrier[]"))
        (pd.getlist (ps "sim_type[]")) (pd.getlist (ps "sim_pin_status[]"))
        (pd.getlist (ps "sim_notes[]")) = [] →
      alGet (extract_device_specific_data pd) (ps "sim_cards") = none) ∧
    (build_sim_cards (pd.getlist (ps "sim_iccid[]")) (pd.getlist (ps "sim_imsi[]"))
        (pd.getlist (ps "sim_phone_number[]")) (pd.getlist (ps "sim_carrier[]"))
        (pd.getlist (ps "sim_type[]")) (pd.getlist (ps "sim_pin_status[]"))
        (pd.getlist (ps "sim_notes[]")) ≠ [] →
      extract_device_specific_data pd =
        extract_flat_fields pd ++
          [(ps "sim_cards", PyVal.simList
            (build_sim_cards (pd.getlist (ps "sim_iccid[]")) (pd.getlist (ps "sim_imsi[]"))
              (pd.getlist (ps "sim_phone_number[]")) (pd.getlist (ps "sim_carrier[]"))
              (pd.getlist (ps "sim_type[]")) (pd.getlist (ps "sim_pin_status[]"))
              (pd.getlist (ps "sim_notes[]"))))]) ∧
    build_sim_cards [ps "A", ps "B"] [ps "X"] [] [] [] [] [] =
      [[(ps "iccid", ps "A"), (ps "imsi", ps "X")], [(ps "iccid", ps "B")]] := by
  refine ⟨?_, ?_, ?_, by decide⟩
  · unfold build_sim_cards
    exact filterMap_guard_eq_filter _ _
  · intro hcards
    have hflat : ∀ b : Bag, b = extract_flat_fields pd →
        alGet b (ps "sim_cards") = none := by
      intro b hb
      rw [hb]
      unfold extract_flat_fields
      exact alGet_not_mem_filterMap _ (extract_flat_fields_key pd) device_specific_fields
        (ps "sim_cards") (by decide)
    simp only [extract_device_specific_data]
    by_cases hany : pd.getlist (ps "sim_iccid[]") ≠ [] ∨ pd.getlist (ps "sim_imsi[]") ≠ [] ∨
        pd.getlist (ps "sim_phone_number[]") ≠ [] ∨ pd.getlist (ps "sim_carrier[]") ≠ [] ∨
        pd.getlist (ps "sim_type[]") ≠ [] ∨ pd.getlist (ps "sim_pin_status[]") ≠ [] ∨
        pd.getlist (ps "sim_notes[]") ≠ []
    · rw [if_pos hany, if_neg (by simpa using hcards)]
      exact hflat _ rfl
    · rw [if_neg hany]
      exact hflat _ rfl
  · intro hcards
    have hany : pd.getlist (ps "sim_iccid[]") ≠ [] ∨ pd.getlist (ps "sim_imsi[]") ≠ [] ∨
        pd.getlist (ps "sim_phone_number[]") ≠ [] ∨ pd.getlist (ps "sim_carrier[]") ≠ [] ∨
        pd.getlist (ps "sim_type[]") ≠ [] ∨ pd.getlist (ps "sim_pin_status[]") ≠ [] ∨
        pd.getlist (ps "sim_notes[]") ≠ [] := by
      by_contra hno
      push_neg at hno
      obtain ⟨h1, h2, h3, h4, h5, h6, h7⟩ := hno
      rw [h1, h2, h3, h4, h5, h6, h7] at hcards
      exact hcards rfl
    simp only [extract_device_specific_data]
    rw [if_pos hany, if_pos (by simpa using hcards)]

/-- Witness for C6 at the claim's SIM example. -/
theorem simZip_correct_witness :
    extract_device_specific_data simExample =
      extract_flat_fields simExample ++
        [(ps "sim_cards", PyVal.simList
          [[(ps "iccid", ps "A"), (ps "imsi", ps "X")], [(ps "iccid", ps "B")]])] ∧
    alGet (extract_device_specific_data emptySimPost) (ps "sim_cards") = none := by
  have h := simZip_correct [ps "A", ps "B"] [ps "X"] [] [] [] [] [] simExample
  have h2 := simZip_correct [] [] [] [] [] [] [] emptySimPost
  refine ⟨?_, ?_⟩
  · have h3 := h.2.2.1 (by decide)
    rw [h3]
    have : build_sim_cards (simExample.getlist (ps "sim_iccid[]"))
        (simExample.getlist (ps "sim_imsi[]"))
        (simExample.getlist (ps "sim_phone_number[]"))
        (simExample.getlist (ps "sim_carrier[]")) (simExample.getlist (ps "sim_type[]"))
        (simExample.getlist (ps "sim_pin_status[]"))
        (simExample.getlist (ps "sim_notes[]")) =
        [[(ps "iccid", ps "A"), (ps "imsi", ps "X")], [(ps "iccid", ps "B")]] := by decide
    rw [this]
  · exact h2.2.1 (by decide)

/-! ### C10: wholesale replacement of the device-specific bag -/

/-- **C10.** An evidence update replaces `device_specific_data` wholesale
with the bag extracted from the current submission; any previously stored
key whose extraction from the submission is empty — including a stored
`sim_cards` list — is discarded, not merged. -/
theorem deviceData_replace_correct (parseDT : PyStr → Option Nat) (now : Nat)
    (pd : PostData) (e : Evidence) (ledger : List Transfer) :
    ((evidence_update_view parseDT now pd e ledger).1.device_specific_data =
      extract_device_specific_data pd) ∧
    (∀ k v, alGet e.device_specific_data k = some v →
      alGet (extract_device_specific_data pd) k = none →
      alGet ((evidence_update_view parseDT now pd e ledger).1.device_specific_data) k =
        none) := by
  have h1 : (evidence_update_view parseDT now pd e ledger).1.device_specific_data =
      extract_device_specific_data pd := by
    simp only [evidence_update_view]
    split <;> rfl
  exact ⟨h1, fun k v _ hnone => by rw [h1]; exact hnone⟩

/-- Witness for C10: an item with a stored `sim_cards` list updated from an
empty submission loses the list. -/
theorem deviceData_replace_correct_witness :
    alGet ((evidence_update_view (fun _ => none) 0 emptySimPost
        (⟨ps "25-0001-001", none, ps "Phone", [], none, [],
          [(ps "sim_cards", PyVal.simList [[(ps "iccid", ps "A")]])],
          ps "sur", [], none, none, none, [], [], []⟩ : Evidence) []).1.device_specific_data)
      (ps "sim_cards") = none := by
  exact (deviceData_replace_correct (fun _ => none) 0 emptySimPost
    (⟨ps "25-0001-001", none, ps "Phone", [], none, [],
      [(ps "sim_cards", PyVal.simList [[(ps "iccid", ps "A")]])],
      ps "sur", [], none, none, none, [], [], []⟩ : Evidence) []).2
    (ps "sim_cards") (PyVal.simList [[(ps "iccid", ps "A")]]) (by decide) (by decide)

/-! ### C9: idempotence of normalization -/

theorem filterMap_congr_mem {α β : Type} :
    ∀ (l : List α) (f g : α → Option β), (∀ a ∈ l, f a = g a) →
      l.filterMap f = l.filterMap g
  | [], _, _, _ => rfl
  | a :: l, f, g, h => by
    rw [List.filterMap_cons, List.filterMap_cons, h a (List.mem_cons_self a l),
      filterMap_congr_mem l f g (fun x hx => h x (List.mem_cons_of_mem a hx))]

theorem flat_field_entry_inv (pd : PostData) (f : PyStr) (p : PyStr × PyVal)
    (hfw : f ≠ ps "write_blocker_used") (hp : flat_field_entry pd f = some p) :
    ∃ v, pd.get f = some v ∧ v ≠ [] ∧ pyStrip v ≠ [] ∧ p = (f, PyVal.str (pyStrip v)) := by
  unfold flat_field_entry at hp
  cases hv : pd.get f with
  | none => simp [hv] at hp
  | some v =>
    simp only [hv] at hp
    by_cases hc : v ≠ [] ∧ pyStrip v ≠ []
    · rw [if_pos hc, if_neg hfw] at hp
      injection hp with h'
      exact ⟨v, rfl, hc.1, hc.2, h'.symm⟩
    · rw [if_neg hc] at hp
      exact absurd hp (by simp)

theorem extract_of_no_simcards (pd : PostData)
    (hsim : alGet (extract_device_specific_data pd) (ps "sim_cards") = none) :
    extract_device_specific_data pd = extract_flat_fields pd := by
  by_cases hany : pd.getlist (ps "sim_iccid[]") ≠ [] ∨ pd.getlist (ps "sim_imsi[]") ≠ [] ∨
      pd.getlist (ps "sim_phone_number[]") ≠ [] ∨ pd.getlist (ps "sim_carrier[]") ≠ [] ∨
      pd.getlist (ps "sim_type[]") ≠ [] ∨ pd.getlist (ps "sim_pin_status[]") ≠ [] ∨
      pd.getlist (ps "sim_notes[]") ≠ []
  · by_cases hcards : build_sim_cards (pd.getlist (ps "sim_iccid[]"))
        (pd.getlist (ps "sim_imsi[]")) (pd.getlist (ps "sim_phone_number[]"))
        (pd.getlist (ps "sim_carrier[]")) (pd.getlist (ps "sim_type[]"))
        (pd.getlist (ps "sim_pin_status[]")) (pd.getlist (ps "sim_notes[]")) = []
    · simp only [extract_device_specific_data]
      rw [if_pos hany, if_neg (by simpa using hcards)]
    · exfalso
      have hext : extract_device_specific_data pd =
          extract_flat_fields pd ++
            [(ps "sim_cards", PyVal.simList
              (build_sim_cards (pd.getlist (ps "sim_iccid[]")) (pd.getlist (ps "sim_imsi[]"))
                (pd.getlist (ps "sim_phone_number[]")) (pd.getlist (ps "sim_carrier[]"))
                (pd.getlist (ps "sim_type[]")) (pd.getlist (ps "sim_pin_status[]"))
                (pd.getlist (ps "sim_notes[]"))))] := by
        simp only [extract_device_specific_data]
        rw [if_pos hany, if_pos (by simpa using hcards)]
      rw [hext, alGet_append] at hsim
      have hflat : alGet (extract_flat_fields pd) (ps "sim_cards") = none := by
        unfold extract_flat_fields
        exact alGet_not_mem_filterMap _ (extract_flat_fields_key pd)
          device_specific_fields (ps "sim_cards") (by decide)
      rw [hflat] at hsim
      have : alGet [((ps "sim_cards"), PyVal.simList
          (build_sim_cards (pd.getlist (ps "sim_iccid[]")) (pd.getlist (ps "sim_imsi[]"))
            (pd.getlist (ps "sim_phone_number[]")) (pd.getlist (ps "sim_carrier[]"))
            (pd.getlist (ps "sim_type[]")) (pd.getlist (ps "sim_pin_status[]"))
            (pd.getlist (ps "sim_notes[]"))))] (ps "sim_cards") = none := hsim
      rw [show alGet [((ps "sim_cards"), PyVal.simList
          (build_sim_cards (pd.getlist (ps "sim_iccid[]")) (pd.getlist (ps "sim_imsi[]"))
            (pd.getlist (ps "sim_phone_number[]")) (pd.getlist (ps "sim_carrier[]"))
            (pd.getlist (ps "sim_type[]")) (pd.getlist (ps "sim_pin_status[]"))
            (pd.getlist (ps "sim_notes[]"))))] (ps "sim_cards") =
          some (PyVal.simList
            (build_sim_cards (pd.getlist (ps "sim_iccid[]")) (pd.getlist (ps "sim_imsi[]"))
              (pd.getlist (ps "sim_phone_number[]")) (pd.getlist (ps "sim_carrier[]"))
              (pd.getlist (ps "sim_type[]")) (pd.getlist (ps "sim_pin_status[]"))
              (pd.getlist (ps "sim_notes[]")))) from by
        show (if ps "sim_cards" = ps "sim_cards" then _ else _) = _
        rw [if_pos rfl]] at this
      exact Option.noConfusion this
  · simp only [extract_device_specific_data]
    rw [if_neg hany]

theorem flat_field_entry_get_none {pd' : PostData} {f : PyStr} (h : pd'.get f = none) :
    flat_field_entry pd' f = none := by
  unfold flat_field_entry
  rw [h]

theorem flat_field_entry_get_some {pd' : PostData} {f v : PyStr} (h : pd'.get f = some v) :
    flat_field_entry pd' f =
      (if v ≠ [] ∧ pyStrip v ≠ [] then
        some (f,
          if f = ps "write_blocker_used" then PyVal.boolV true
          else PyVal.str (pyStrip v))
      else none) := by
  unfold flat_field_entry
  rw [h]

/-- **C9 counterexample.** Normalization is not idempotent: the submission
`sim_iccid[]=['A']` extracts to a bag holding only `sim_cards`, and
re-running the extraction on that bag (resubmitted as form data) loses the
`sim_cards` key, because the extractor reads SIM data only from the
`[]`-suffixed array keys, which a plain dict does not carry. -/
theorem normalization_idempotent_cex :
    extract_device_specific_data
        (bag_as_post (extract_device_specific_data simOnlyPost)) ≠
      extract_device_specific_data simOnlyPost := by decide

/-- **C9 amended.** Normalization is idempotent on its flat string
attributes: whenever the extracted bag contains neither `write_blocker_used`
nor `sim_cards`, re-running the extraction on that bag resubmitted as form
data returns it unchanged.  With a stored `sim_cards` list (or the boolean
`write_blocker_used` flag) the bag is not a fixed point, since those values
do not survive resubmission. -/
theorem normalization_idempotent_amended (pd : PostData)
    (hwbu : alGet (extract_device_specific_data pd) (ps "write_blocker_used") = none)
    (hsim : alGet (extract_device_specific_data pd) (ps "sim_cards") = none) :
    extract_device_specific_data (bag_as_post (extract_device_specific_data pd)) =
      extract_device_specific_data pd := by
  have hbflat : extract_device_specific_data pd = extract_flat_fields pd :=
    extract_of_no_simcards pd hsim
  -- the `write_blocker_used` field contributed nothing
  have hlkw := alGet_filterMap_self _ (extract_flat_fields_key pd) device_specific_fields
    device_specific_fields_nodup (ps "write_blocker_used") (by decide)
  have h0 : (flat_field_entry pd (ps "write_blocker_used")).map Prod.snd = none := by
    rw [← hlkw]
    show alGet (extract_flat_fields pd) (ps "write_blocker_used") = none
    rw [← hbflat]
    exact hwbu
  have hwbuNone : flat_field_entry pd (ps "write_blocker_used") = none := by
    cases he : flat_field_entry pd (ps "write_blocker_used") with
    | none => rfl
    | some p => rw [he] at h0; exact absurd h0 (by simp)
  rw [hbflat]
  have houter : extract_device_specific_data (bag_as_post (extract_flat_fields pd)) =
      extract_flat_fields (bag_as_post (extract_flat_fields pd)) :=
    extract_eq_flat _ (fun _ _ => rfl)
  rw [houter]
  refine filterMap_congr_mem device_specific_fields
    (flat_field_entry (bag_as_post (extract_flat_fields pd))) (flat_field_entry pd) ?_
  intro f hf
  have hlk := alGet_filterMap_self _ (extract_flat_fields_key pd) device_specific_fields
    device_specific_fields_nodup f hf
  cases hef : flat_field_entry pd f with
  | none =>
    have hget : (bag_as_post (extract_flat_fields pd)).get f = none := by
      show (match alGet (extract_flat_fields pd) f with
        | some (PyVal.str s) => some s
        | _ => none) = none
      rw [show alGet (extract_flat_fields pd) f =
          (flat_field_entry pd f).map Prod.snd from hlk, hef]
      rfl
    rw [flat_field_entry_get_none hget]
  | some p =>
    have hfw : f ≠ ps "write_blocker_used" := by
      intro he
      rw [he, hwbuNone] at hef
      exact Option.noConfusion hef
    obtain ⟨v, hv, hvne, hsne, hpeq⟩ := flat_field_entry_inv pd f p hfw hef
    have hget : (bag_as_post (extract_flat_fields pd)).get f = some (pyStrip v) := by
      show (match alGet (extract_flat_fields pd) f with
        | some (PyVal.str s) => some s
        | _ => none) = some (pyStrip v)
      rw [show alGet (extract_flat_fields pd) f =
          (flat_field_entry pd f).map Prod.snd from hlk, hef, hpeq]
      rfl
    have hidem : pyStrip (pyStrip v) = pyStrip v := pyStrip_idem v
    rw [flat_field_entry_get_some hget,
      if_pos ⟨hsne, by rw [hidem]; exact hsne⟩, if_neg hfw, hidem, hpeq]

/-- Witness for the amended C9 at the flat mobile example. -/
theorem normalization_idempotent_amended_witness :
    extract_device_specific_data
        (bag_as_post (extract_device_specific_data mobileExample)) =
      extract_device_specific_data mobileExample :=
  normalization_idempotent_amended mobileExample (by decide) (by decide)

/-! ### C8: duplicate explicit identifiers -/

/-- **C8 counterexample.** Renumbering evidence `25-0001-002` to the taken
number `25-0001-001` is not rejected with a duplicate-identifier error: no
uniqueness check runs and the constraint violation escapes the view
unhandled (the store itself stays unchanged). -/
theorem duplicateIdentifier_cex :
    evidence_update_number_view (ps "25-0001-001") (ps "25-0001-002")
        [ps "25-0001-001", ps "25-0001-002"] =
      RequestOutcome.crashed [ps "25-0001-001", ps "25-0001-002"] ∧
    RequestOutcome.crashed [ps "25-0001-001", ps "25-0001-002"] ≠
      RequestOutcome.rejectedDuplicate [ps "25-0001-001", ps "25-0001-002"] := by
  refine ⟨?_, ?_⟩ <;> decide

/-- **C8 amended.** An operator-supplied explicit number that is already
taken leaves the store unchanged in every path, but only the case paths
reject it with a duplicate-identifier message: case creation and case
renumbering re-render the form with the "already exists" error; evidence
creation fails with the generic creation-error message; evidence
renumbering performs no uniqueness check at all and the unique constraint
surfaces as an unhandled error. -/
theorem duplicateIdentifier_amended (num year current : PyStr) (db : List PyStr)
    (hdb : num ∈ db) (hneq : num ≠ current) (hnonempty : num ≠ [])
    (hstrip : pyStrip num = num) :
    case_create_view num year db = RequestOutcome.rejectedDuplicate db ∧
    case_update_view num current db = RequestOutcome.rejectedDuplicate db ∧
    evidence_create_view num db = RequestOutcome.rejectedGeneric db ∧
    evidence_update_number_view num current db = RequestOutcome.crashed db := by
  have herase : num ∈ db.erase current := (List.mem_erase_of_ne hneq).mpr hdb
  refine ⟨?_, ?_, ?_, ?_⟩
  · show (if case_save_number num year db ∈ db then _ else _) = _
    rw [show case_save_number num year db = num from by
      unfold case_save_number; rw [if_neg hnonempty]]
    rw [if_pos hdb]
  · unfold case_update_view
    rw [if_pos ⟨hnonempty, hneq⟩, if_pos herase]
  · unfold evidence_create_view
    rw [if_pos hdb]
  · show (if (if pyStrip num ≠ [] then pyStrip num else current) ∈ db.erase current
      then _ else _) = _
    rw [hstrip, if_pos hnonempty, if_pos herase]

/-- Witness for the amended C8 at a concrete two-item store. -/
theorem duplicateIdentifier_amended_witness :
    case_create_view (ps "25-0001-001") (ps "25") [ps "25-0001-001", ps "25-0001-002"] =
      RequestOutcome.rejectedDuplicate [ps "25-0001-001", ps "25-0001-002"] ∧
    case_update_view (ps "25-0001-001") (ps "25-0001-002")
        [ps "25-0001-001", ps "25-0001-002"] =
      RequestOutcome.rejectedDuplicate [ps "25-0001-001", ps "25-0001-002"] ∧
    evidence_create_view (ps "25-0001-001") [ps "25-0001-001", ps "25-0001-002"] =
      RequestOutcome.rejectedGeneric [ps "25-0001-001", ps "25-0001-002"] ∧
    evidence_update_number_view (ps "25-0001-001") (ps "25-0001-002")
        [ps "25-0001-001", ps "25-0001-002"] =
      RequestOutcome.crashed [ps "25-0001-001", ps "25-0001-002"] :=
  duplicateIdentifier_amended (ps "25-0001-001") (ps "25") (ps "25-0001-002")
    [ps "25-0001-001", ps "25-0001-002"] (by decide) (by decide) (by decide) (by decide)
